import Mathlib

/-
Verification of the per-room client state machine (room.ts, the single large
source file of this repository).  The machine's state and the operations
verified below are embedded shallowly:

* JS objects holding JSON presence data are modelled as functions
  `String -> Option Nat` (`none` = key absent); object spread becomes the
  pointwise override `pmerge`.
* JS `Map`s are modelled as insertion-ordered association lists with
  `mapSet` / `mapGet` / `mapDel`.
* The injected `effects` object and the listener registries are modelled by
  returning an ordered list of `Effect`s from each operation (one entry per
  listener-notification / effect invocation).
* Fallible code (`nn`, `getConnectionId`, and everything calling them) returns
  `Except String`.
* Fields of `State` that no modelled operation inspects are omitted:
  `items`, `root` (kept as the Boolean `hasRoot`, the only way the machine
  reads it), `idFactory`, `defaultStorageRoot`, and the listener arrays
  (replaced by the `Effect` trace).  The CRDT op engine (`applyOp` dispatches
  to node methods of `LiveObject` & co., which live outside this file) is
  abstracted as the parameter `Deps.applyOp`, and the external utility
  `mergeStorageUpdates` as `Deps.merge`; theorems quantify over both.
-/

namespace Liveblocks

/-- JSON presence objects (`TPresence`, `Partial<TPresence>`): a finite map
from string keys to opaque values, as a function; `none` means the key is
absent.  Values are abstracted as `Nat`. -/
abbrev PObj : Type := String → Option Nat

/-- The empty JS object `{}`. -/
def emptyP : PObj := fun _ => none

/-- JS object spread `{ ...base, ...upd }`: keys of `upd` override `base`. -/
def pmerge (base upd : PObj) : PObj :=
  fun k => match upd k with
  | some v => some v
  | none => base k

/-- The `OpCode` discriminants of storage operations (from `./types`). -/
inductive OpCode where
  | createObject
  | createList
  | createMap
  | createRegister
  | updateObject
  | deleteObjectKey
  | deleteCrdt
  | setParentKey
  deriving DecidableEq, Repr

/-- A storage operation.  Only the fields the modelled machine code inspects
are kept: the discriminant `type`, the op id, the target node id and the
parent node id.  Payload fields (`data`, `parentKey`, ...) are opaque to the
machine and are omitted. -/
structure Op where
  type : OpCode
  opId : Option String
  id : Option String
  parentId : Option String
  deriving DecidableEq, Repr

/-- `OpSource` (from `./AbstractCrdt`): how an op reached the apply loop. -/
inductive OpSource where
  | UNDOREDO_RECONNECT
  | ACK
  | REMOTE
  deriving DecidableEq, Repr

/-- The `modified` payload of a successful engine application:
`{node, type, updates}`.  The machine reads the node's `_id` and its parent's
`_id` (`none` models `parent.type === "Root"`); the rest (`type`, `updates`)
is opaque and abstracted as `payload`. -/
structure ModifiedInfo where
  nodeId : String
  parentId : Option String
  payload : Nat
  deriving DecidableEq, Repr

/-- A successful `ApplyResult`: `{ modified, reverse }`.  `modified: false`
is modelled as `none` at the use sites. -/
structure ApplyOk where
  modified : ModifiedInfo
  reverse : List Op
  deriving DecidableEq, Repr

/-- One element of a `HistoryItem`: either a storage `Op` or a
`{type: "presence", data}` record. -/
inductive HItem where
  | presence (data : PObj)
  | op (o : Op)

/-- `HistoryItem<TPresence>`: an ordered sequence of history elements. -/
abbrev HistoryItem : Type := List HItem

/-- The presence buffer: `null | {type:"partial",data} | {type:"full",data}`
(the `null` case is `Option.none` at the use sites; `partl` is the source's
"partial" tag). -/
inductive PresenceBuf where
  | partl (data : PObj)
  | full (data : PObj)

/-- Client-to-server messages (`ClientMsg`), as composed by
`flushDataToMessages` and the buffered-message producers. -/
inductive ClientMsg where
  | updatePresenceMsg (targetActor : Option Int) (data : PObj)
  | broadcastEventMsg (event : Nat)
  | updateStorageMsg (ops : List Op)
  | fetchStorageMsg

/-- The `state` string of a `Connection`, as handed to connection listeners. -/
inductive ConnStatus where
  | closed
  | authenticating
  | connecting
  | opened
  | unavailable
  | failed
  deriving DecidableEq, Repr

/-- `Connection`: the tagged connection variant.  `connecting` and `open`
(`opened` here, `open` being a Lean keyword) carry the actor id and the
token's user metadata. -/
inductive Connection where
  | closed
  | authenticating
  | unavailable
  | failed
  | connecting (id : Nat) (userId : Option String) (userInfo : Option Nat)
  | opened (id : Nat) (userId : Option String) (userInfo : Option Nat)

/-- The `state` tag of a `Connection`. -/
def Connection.status : Connection → ConnStatus
  | .closed => .closed
  | .authenticating => .authenticating
  | .unavailable => .unavailable
  | .failed => .failed
  | .connecting _ _ _ => .connecting
  | .opened _ _ _ => .opened

/-- A `User` record in `state.users` (the `_hasReceivedInitialPresence`
flag included). -/
structure UserEntry where
  connectionId : Nat
  id : Option String
  info : Option Nat
  presence : Option PObj
  hasReceivedInitialPresence : Bool

/-- A user as exposed by `makeOthers`: the same record with the
`_hasReceivedInitialPresence` flag stripped. -/
structure OtherUser where
  connectionId : Nat
  id : Option String
  info : Option Nat
  presence : Option PObj

/-- Strip the private flag, as the destructuring in `makeOthers` does. -/
def stripUser (u : UserEntry) : OtherUser :=
  { connectionId := u.connectionId, id := u.id, info := u.info, presence := u.presence }

/-- `OthersEvent`: the events delivered to `others` listeners. -/
inductive OthersEvent where
  | enter (u : UserEntry)
  | leave (u : UserEntry)
  | reset
  | update (updates : PObj) (u : UserEntry)

/-- The trace of effect invocations and listener notifications an operation
performs, in order. -/
inductive Effect where
  | connectionChanged (c : ConnStatus)
  | othersEvent (e : OthersEvent)
  | myPresence
  | storageCb (nodeIds : List String)
  | errorFired (message : String) (code : Nat)
  | historyChange (canUndo canRedo : Bool)
  | send (msgs : List ClientMsg)
  | delayFlush (delay : Nat)
  | scheduleReconnect (delay : Nat)
  | startHeartbeat
  | schedulePongTimeout
  | authenticate

/-- Insertion-ordered association list standing for a JS `Map`:
`m.set(k, v)` replaces in place or appends. -/
def mapSet {β : Type} (m : List (String × β)) (k : String) (v : β) : List (String × β) :=
  match m with
  | [] => [(k, v)]
  | (k', v') :: rest => if k' = k then (k, v) :: rest else (k', v') :: mapSet rest k v

/-- `m.get(k)`. -/
def mapGet {β : Type} (m : List (String × β)) (k : String) : Option β :=
  match m with
  | [] => none
  | (k', v') :: rest => if k' = k then some v' else mapGet rest k

/-- `m.delete(k)`: the map without `k`, and whether an entry was removed. -/
def mapDel {β : Type} (m : List (String × β)) (k : String) : List (String × β) × Bool :=
  match m with
  | [] => ([], false)
  | (k', v') :: rest =>
    if k' = k then (rest, true)
    else
      let r := mapDel rest k
      ((k', v') :: r.1, r.2)

/-- The full machine `State` (all fields the modelled operations touch; see
the header comment for the omitted ones). -/
structure MState where
  connection : Connection
  token : Option String
  lastConnectionId : Option Nat
  socket : Option Nat
  lastFlushTime : Nat
  bufferPresence : Option PresenceBuf
  bufferMessages : List ClientMsg
  bufferStorageOperations : List Op
  flushTimeout : Option Nat
  reconnectTimeout : Nat
  pongTimeout : Nat
  heartbeatInterval : Nat
  me : PObj
  users : Nat → Option UserEntry
  othersView : Nat → Option OtherUser
  numberOfRetry : Nat
  hasRoot : Bool
  clock : Nat
  opClock : Nat
  undoStack : List HistoryItem
  redoStack : List HistoryItem
  isHistoryPaused : Bool
  pausedHistory : HistoryItem
  isBatching : Bool
  batchOps : List Op
  batchReverseOps : HistoryItem
  batchUpdatesPresence : Bool
  batchStorageUpdates : List (String × ModifiedInfo)
  offlineOperations : List (String × Op)

/-- The externally injected pieces the machine closes over: the CRDT op
engine (`applyOp` delegates to node methods defined outside this file), the
`mergeStorageUpdates` utility, the current wall-clock (`Date.now()`), and
`context.throttleDelay`. -/
structure Deps where
  applyOp : Op → OpSource → Option ApplyOk
  merge : Option ModifiedInfo → ModifiedInfo → ModifiedInfo
  now : Nat
  throttleDelay : Nat

/-- `WebSocket.OPEN`. -/
def WS_OPEN : Nat := 1

/-- Modelled from the spec: `WebsocketCloseCodes.CLOSE_WITHOUT_RETRY` is
imported from `./types`, which is not part of this file; spec 6.4 lists it
as a well-known terminal close code distinct from the 4000-4100 range. -/
def CLOSE_WITHOUT_RETRY : Nat := 4999

/-- Fast backoff schedule. -/
def BACKOFF_RETRY_DELAYS : List Nat := [250, 500, 1000, 2000, 4000, 8000, 10000]

/-- Slow backoff schedule. -/
def BACKOFF_RETRY_DELAYS_SLOW : List Nat := [2000, 30000, 60000, 300000]

/-- `getRetryDelay(slow)`: index the backoff table by `numberOfRetry`,
clamped to the last entry. -/
def getRetryDelay (s : MState) (slow : Bool) : Nat :=
  if slow then
    BACKOFF_RETRY_DELAYS_SLOW.getD
      (if s.numberOfRetry < BACKOFF_RETRY_DELAYS_SLOW.length then s.numberOfRetry
       else BACKOFF_RETRY_DELAYS_SLOW.length - 1) 0
  else
    BACKOFF_RETRY_DELAYS.getD
      (if s.numberOfRetry < BACKOFF_RETRY_DELAYS.length then s.numberOfRetry
       else BACKOFF_RETRY_DELAYS.length - 1) 0

/-- `updateConnection(connection)`: store it and fire connection listeners. -/
def updateConnection (s : MState) (c : Connection) : MState × List Effect :=
  ({ s with connection := c }, [Effect.connectionChanged c.status])

/-- `canUndo()`. -/
def canUndo (s : MState) : Bool := s.undoStack.length > 0

/-- `canRedo()`. -/
def canRedo (s : MState) : Bool := s.redoStack.length > 0

/-- `onHistoryChange()`: notify history listeners. -/
def onHistoryChange (s : MState) : List Effect :=
  [Effect.historyChange (canUndo s) (canRedo s)]

/-- `notify({storageUpdates, presence, others})`: rebuild the others view and
fire others listeners when events are present, then my-presence listeners,
then storage listeners. -/
def notify (s : MState) (storageUpdates : List (String × ModifiedInfo))
    (presence : Bool) (others : List OthersEvent) : MState × List Effect :=
  let p1 : MState × List Effect :=
    if others.isEmpty then (s, [])
    else ({ s with othersView := fun n => (s.users n).map stripUser },
          others.map Effect.othersEvent)
  let e2 : List Effect := if presence then [Effect.myPresence] else []
  let e3 : List Effect :=
    if storageUpdates.isEmpty then [] else [Effect.storageCb (storageUpdates.map Prod.fst)]
  (p1.1, p1.2 ++ e2 ++ e3)

/-- `addToUndoStack(historyItem)`: shift the oldest entry when the stack has
reached 50; while history is paused, redirect the item into `pausedHistory`
(an `unshift`), otherwise push it and notify history listeners. -/
def addToUndoStack (s : MState) (historyItem : HistoryItem) : MState × List Effect :=
  let s := if s.undoStack.length ≥ 50 then { s with undoStack := s.undoStack.tail } else s
  if s.isHistoryPaused then
    ({ s with pausedHistory := historyItem ++ s.pausedHistory }, [])
  else
    let s := { s with undoStack := s.undoStack ++ [historyItem] }
    (s, onHistoryChange s)

/-- `flushDataToMessages(state)`: the queued presence update (a full update
carries `targetActor: -1`), then the buffered client messages, then one
`UPDATE_STORAGE` when storage ops are buffered. -/
def flushDataToMessages (s : MState) : List ClientMsg :=
  (match s.bufferPresence with
   | some (.full d) => [ClientMsg.updatePresenceMsg (some (-1)) d]
   | some (.partl d) => [ClientMsg.updatePresenceMsg none d]
   | none => [])
  ++ s.bufferMessages
  ++ (if s.bufferStorageOperations.isEmpty then [] else
        [ClientMsg.updateStorageMsg s.bufferStorageOperations])

/-- The drain loop of `tryFlushing`:
`storageOps.forEach(op => offlineOperations.set(nn(op.opId), op))`; `nn`
throws on a missing op id. -/
def drainOps (ops : List Op) (m : List (String × Op)) : Except String (List (String × Op)) :=
  match ops with
  | [] => .ok m
  | op :: rest =>
    match op.opId with
    | none => .error "Expected value to be non-nullable"
    | some id => drainOps rest (mapSet m id op)

/-- `tryFlushing()`: record every buffered storage op in `offlineOperations`;
if the socket is absent or not OPEN, zero the storage-op buffer and stop;
otherwise either send the composed messages and reset the buffer (when the
throttle window has elapsed and there is something to send) or (re)arm the
flush timer. -/
def tryFlushing (deps : Deps) (s0 : MState) : Except String (MState × List Effect) :=
  match drainOps s0.bufferStorageOperations s0.offlineOperations with
  | .error e => .error e
  | .ok offline =>
    let s : MState := { s0 with offlineOperations := offline }
    if s.socket ≠ some WS_OPEN then
      .ok ({ s with bufferStorageOperations := [] }, [])
    else
      let now := deps.now
      let elapsedTime := now - s.lastFlushTime
      if elapsedTime > deps.throttleDelay then
        let messages := flushDataToMessages s
        if messages.isEmpty then .ok (s, [])
        else
          .ok ({ s with bufferPresence := none, bufferMessages := [],
                        bufferStorageOperations := [], lastFlushTime := now },
               [Effect.send messages])
      else
        .ok ({ s with flushTimeout := some 0 },
             [Effect.delayFlush (deps.throttleDelay - (now - s.lastFlushTime))])

/-- `dispatch(ops)`: append to the outgoing storage-op buffer and flush. -/
def dispatch (deps : Deps) (s : MState) (ops : List Op) : Except String (MState × List Effect) :=
  tryFlushing deps { s with bufferStorageOperations := s.bufferStorageOperations ++ ops }

/-- `storageDispatch(ops, reverse, storageUpdates)` (the `dispatch` callback
handed to CRDT nodes): while batching, accumulate into `state.batch`;
otherwise append the reverse ops to the undo stack, clear the redo stack,
dispatch the ops and notify. -/
def storageDispatch (deps : Deps) (s : MState) (ops : List Op) (reverse : List Op)
    (storageUpdates : List (String × ModifiedInfo)) : Except String (MState × List Effect) :=
  if s.isBatching then
    let batchSU := storageUpdates.foldl
      (fun m kv => mapSet m kv.1 (deps.merge (mapGet m kv.1) kv.2)) s.batchStorageUpdates
    .ok ({ s with batchOps := s.batchOps ++ ops,
                  batchStorageUpdates := batchSU,
                  batchReverseOps := s.batchReverseOps ++ reverse.map HItem.op }, [])
  else
    let p1 := addToUndoStack s (reverse.map HItem.op)
    let s := { p1.1 with redoStack := [] }
    match dispatch deps s ops with
    | .error e => .error e
    | .ok (s, e2) =>
      let p3 := notify s storageUpdates false []
      .ok (p3.1, p1.2 ++ e2 ++ p3.2)

/-- `getConnectionId()`: the current actor id, falling back to
`lastConnectionId`; raises when the connection was never open. -/
def getConnectionId (s : MState) : Except String Nat :=
  match s.connection with
  | .opened id _ _ => .ok id
  | .connecting id _ _ => .ok id
  | _ =>
    match s.lastConnectionId with
    | some n => .ok n
    | none => .error "Internal. Tried to get connection id but connection was never open"

/-- `generateOpId()`: the string `{connectionId}:{opClock++}`. -/
def generateOpId (s : MState) : Except String (String × MState) :=
  match getConnectionId s with
  | .error e => .error e
  | .ok cid => .ok (toString cid ++ ":" ++ toString s.opClock, { s with opClock := s.opClock + 1 })

/-- The op-id assignment step of the `apply` loop:
`if (!op.opId) op.opId = generateOpId();` — the op of the history item is
mutated in place, hence the updated op is returned alongside the state. -/
def assignOpId (s : MState) (o : Op) : Except String (Op × MState) :=
  if o.opId = none then
    match generateOpId s with
    | .error e => .error e
    | .ok (oid, s') => .ok ({ o with opId := some oid }, s')
  else .ok (o, s)

/-- The `OpSource` determination of the `apply` loop: local application is
`UNDOREDO_RECONNECT`; a remote op whose id is an offline op is an `ACK`
(removing the offline entry), otherwise `REMOTE`.  `nn(op.opId)` raises on a
missing id. -/
def opSourceFor (isLocal : Bool) (s : MState) (o : Op) : Except String (OpSource × MState) :=
  if isLocal then .ok (OpSource.UNDOREDO_RECONNECT, s)
  else
    match o.opId with
    | none => .error "Expected value to be non-nullable"
    | some oid =>
      let r := mapDel s.offlineOperations oid
      .ok ((if r.2 then OpSource.ACK else OpSource.REMOTE),
           { s with offlineOperations := r.1 })

/-- The accumulator of the `apply` loop: the reverse history (built by
`unshift`), the per-node storage updates, the presence flag, the
`createdNodeIds` set, and the processed items (ops with their ids assigned
in place). -/
structure ApplyAcc where
  reverse : HistoryItem
  storageUpdates : List (String × ModifiedInfo)
  presence : Bool
  createdNodeIds : List String
  item2 : HistoryItem

/-- The body of `apply(item, isLocal)`, one history element at a time.
Presence elements: compute the reverse from the current `me`, merge into
`me` and into the queued presence buffer (keeping the buffer's kind).  Op
elements: assign an op id when missing, determine the `OpSource`
(`UNDOREDO_RECONNECT` when local, else `ACK` exactly when the op id was an
offline op, removing it), run the engine, and when it reports `modified`:
unless the modified node's parent is a node in `createdNodeIds`, merge the
per-node storage update and unshift the engine's reverse ops; record the
created node id for `CREATE_{LIST,MAP,OBJECT}`. -/
def applyGo (deps : Deps) (isLocal : Bool) :
    MState → ApplyAcc → HistoryItem → Except String (MState × ApplyAcc)
  | s, acc, [] => .ok (s, acc)
  | s, acc, HItem.presence data :: rest =>
    let reverseData : PObj := fun k => if (data k).isSome then s.me k else none
    let buf : PresenceBuf :=
      match s.bufferPresence with
      | none => PresenceBuf.partl data
      | some (.partl d) =>
        PresenceBuf.partl (fun k => match data k with | some v => some v | none => d k)
      | some (.full d) =>
        PresenceBuf.full (fun k => match data k with | some v => some v | none => d k)
    let s := { s with me := pmerge s.me data, bufferPresence := some buf }
    applyGo deps isLocal s
      { acc with reverse := HItem.presence reverseData :: acc.reverse,
                 presence := true,
                 item2 := acc.item2 ++ [HItem.presence data] } rest
  | s, acc, HItem.op o :: rest =>
    match assignOpId s o with
    | .error e => .error e
    | .ok (o, s) =>
      match opSourceFor isLocal s o with
      | .error e => .error e
      | .ok (source, s) =>
        match deps.applyOp o source with
        | none => applyGo deps isLocal s { acc with item2 := acc.item2 ++ [HItem.op o] } rest
        | some res =>
          let pass : Bool :=
            match res.modified.parentId with
            | none => true
            | some p => !(acc.createdNodeIds.contains p)
          let acc :=
            if pass then
              { acc with
                storageUpdates := mapSet acc.storageUpdates res.modified.nodeId
                  (deps.merge (mapGet acc.storageUpdates res.modified.nodeId) res.modified),
                reverse := res.reverse.map HItem.op ++ acc.reverse }
            else acc
          let acc :=
            if o.type = OpCode.createList ∨ o.type = OpCode.createMap ∨
               o.type = OpCode.createObject then
              { acc with createdNodeIds := res.modified.nodeId :: acc.createdNodeIds }
            else acc
          applyGo deps isLocal s { acc with item2 := acc.item2 ++ [HItem.op o] } rest

/-- The aggregated result of `apply`: `{reverse, updates}`. -/
structure ApplyResultT where
  reverse : HistoryItem
  storageUpdates : List (String × ModifiedInfo)
  presence : Bool

/-- `apply(item, isLocal)`; also returns the processed item, since the source
mutates the ops of the history item in place when assigning op ids and the
callers (`undo`, `redo`) then read those ops back. -/
def apply (deps : Deps) (s : MState) (item : HistoryItem) (isLocal : Bool) :
    Except String (MState × HistoryItem × ApplyResultT) :=
  match applyGo deps isLocal s ⟨[], [], false, [], []⟩ item with
  | .error e => .error e
  | .ok (s, acc) => .ok (s, acc.item2, ⟨acc.reverse, acc.storageUpdates, acc.presence⟩)

/-- `updatePresence(overrides, options)`: capture the old values of the
overridden keys, write the overrides into the queued presence buffer
(creating an empty partial buffer when none is queued) and into `me`; while
batching accumulate into `state.batch`, otherwise flush, append to history
when requested, and notify my-presence listeners. -/
def updatePresence (deps : Deps) (s0 : MState) (overrides : PObj) (addToHistory : Bool) :
    Except String (MState × List Effect) :=
  let oldValues : PObj := fun k => if (overrides k).isSome then s0.me k else none
  let buf : PresenceBuf :=
    match s0.bufferPresence with
    | none => PresenceBuf.partl (fun k => overrides k)
    | some (.partl d) =>
      PresenceBuf.partl (fun k => match overrides k with | some v => some v | none => d k)
    | some (.full d) =>
      PresenceBuf.full (fun k => match overrides k with | some v => some v | none => d k)
  let s := { s0 with bufferPresence := some buf, me := pmerge s0.me overrides }
  if s.isBatching then
    let s :=
      if addToHistory then
        { s with batchReverseOps := s.batchReverseOps ++ [HItem.presence oldValues] }
      else s
    .ok ({ s with batchUpdatesPresence := true }, [])
  else
    match tryFlushing deps s with
    | .error e => .error e
    | .ok (s, e1) =>
      let p2 :=
        if addToHistory then addToUndoStack s [HItem.presence oldValues] else (s, [])
      let p3 := notify p2.1 [] true []
      .ok (p3.1, e1 ++ p2.2 ++ p3.2)

/-- The inbound `UPDATE_PRESENCE` server message. -/
structure UpdatePresenceMsg where
  actor : Nat
  data : PObj
  targetActor : Option Nat

/-- `onUpdatePresenceMessage(message)`: drop non-targeted updates for a user
whose initial presence has not been received; otherwise create the user
record (new users) or merge the data into its presence (existing users),
marking initial presence as received, and produce an update event. -/
def onUpdatePresenceMessage (s : MState) (m : UpdatePresenceMsg) : MState × Option OthersEvent :=
  let user := s.users m.actor
  if m.targetActor.isNone &&
     (match user with
      | some u => !u.hasReceivedInitialPresence
      | none => false) then
    (s, none)
  else
    let entry : UserEntry :=
      match user with
      | none =>
        { connectionId := m.actor, presence := some m.data, id := none, info := none,
          hasReceivedInitialPresence := true }
      | some u =>
        { id := u.id, info := u.info, connectionId := m.actor,
          presence := some (pmerge (u.presence.getD emptyP) m.data),
          hasReceivedInitialPresence := true }
    ({ s with users := fun a => if a = m.actor then some entry else s.users a },
     some (OthersEvent.update m.data entry))

/-- `connect()`: a no-op returning `null` (the Boolean in the result) unless
the connection is `closed` or `unavailable`; otherwise transition to
`authenticating` and invoke `effects.authenticate` (the auth fetcher and
socket factory it receives are environment closures with no machine
state). -/
def connect (s : MState) : MState × List Effect × Bool :=
  if s.connection.status ≠ ConnStatus.closed ∧ s.connection.status ≠ ConnStatus.unavailable then
    (s, [], true)
  else
    let p := updateConnection s Connection.authenticating
    (p.1, p.2 ++ [Effect.authenticate], false)

/-- A socket close event. -/
structure CloseEvent where
  code : Nat
  wasClean : Bool
  reason : String

/-- `onClose(event)`: drop the socket, clear the timers (pure effect calls),
reset the users map and notify a reset; then, by close code: 4000-4100 ->
`failed`, fire error listeners, `unavailable`, slow-backoff reconnect;
`CLOSE_WITHOUT_RETRY` -> `closed`; otherwise `unavailable` with fast-backoff
reconnect. -/
def onClose (s0 : MState) (ev : CloseEvent) : MState × List Effect :=
  let s : MState := { s0 with socket := none, users := fun _ => none }
  let p0 := notify s [] false [OthersEvent.reset]
  let s := p0.1
  if 4000 ≤ ev.code ∧ ev.code ≤ 4100 then
    let p1 := updateConnection s Connection.failed
    let eErr := [Effect.errorFired ev.reason ev.code]
    let delay := getRetryDelay p1.1 true
    let s := { p1.1 with numberOfRetry := p1.1.numberOfRetry + 1 }
    let p2 := updateConnection s Connection.unavailable
    ({ p2.1 with reconnectTimeout := 0 },
     p0.2 ++ p1.2 ++ eErr ++ p2.2 ++ [Effect.scheduleReconnect delay])
  else if ev.code = CLOSE_WITHOUT_RETRY then
    let p1 := updateConnection s Connection.closed
    (p1.1, p0.2 ++ p1.2)
  else
    let delay := getRetryDelay s false
    let s := { s with numberOfRetry := s.numberOfRetry + 1 }
    let p1 := updateConnection s Connection.unavailable
    ({ p1.1 with reconnectTimeout := 0 },
     p0.2 ++ p1.2 ++ [Effect.scheduleReconnect delay])

/-- The test `state.lastConnectionId !== undefined` of `onOpen`.  The field
has type `number | null` and is initialized to `null`, never `undefined`;
since in JS `null !== undefined` holds, the test is true for every value
the field can take. -/
def lastConnectionIdNotUndefined (_ : Option Nat) : Bool := true

/-- `onOpen()`: restart the heartbeat interval; when `connecting`, transition
to open, reset the retry counter, re-queue a full presence update and flush
(guarded by `lastConnectionId !== undefined`, see
`lastConnectionIdNotUndefined`), record `lastConnectionId`, queue
`FETCH_STORAGE` when storage is loaded, and flush. -/
def onOpen (deps : Deps) (s0 : MState) : Except String (MState × List Effect) :=
  let s : MState := { s0 with heartbeatInterval := 0 }
  let eHB := [Effect.startHeartbeat]
  match s.connection with
  | .connecting id userId userInfo =>
    let p1 := updateConnection s (Connection.opened id userId userInfo)
    let s := { p1.1 with numberOfRetry := 0 }
    match (if lastConnectionIdNotUndefined s.lastConnectionId then
             tryFlushing deps { s with bufferPresence := some (PresenceBuf.full s.me) }
           else Except.ok (s, [])) with
    | .error e => .error e
    | .ok (s, e2) =>
      let s := { s with lastConnectionId := some id }
      let s :=
        if s.hasRoot then
          { s with bufferMessages := s.bufferMessages ++ [ClientMsg.fetchStorageMsg] }
        else s
      match tryFlushing deps s with
      | .error e => .error e
      | .ok (s, e3) => .ok (s, eHB ++ p1.2 ++ e2 ++ e3)
  | _ => .ok (s, eHB)

/-- `undo()`: forbidden during a batch; pop the undo stack (no-op when
empty), unpause history, apply the entry as local, notify, push the produced
reverse onto the redo stack, notify history listeners, buffer the entry's
storage ops and flush. -/
def undo (deps : Deps) (s : MState) : Except String (MState × List Effect) :=
  if s.isBatching then .error "undo is not allowed during a batch"
  else
    match s.undoStack.getLast? with
    | none => .ok (s, [])
    | some historyItem =>
      let s := { s with undoStack := s.undoStack.dropLast, isHistoryPaused := false }
      match apply deps s historyItem true with
      | .error e => .error e
      | .ok (s, item2, result) =>
        let p1 := notify s result.storageUpdates result.presence []
        let s := { p1.1 with redoStack := p1.1.redoStack ++ [result.reverse] }
        let e2 := onHistoryChange s
        let opsToBuffer := item2.filterMap (fun i => match i with
          | HItem.op o => some o
          | HItem.presence _ => none)
        let s := { s with bufferStorageOperations := s.bufferStorageOperations ++ opsToBuffer }
        match tryFlushing deps s with
        | .error e => .error e
        | .ok (s, e3) => .ok (s, p1.2 ++ e2 ++ e3)

/-- `redo()`: symmetric to `undo`, popping the redo stack and pushing the
produced reverse onto the undo stack (directly, not via
`addToUndoStack`). -/
def redo (deps : Deps) (s : MState) : Except String (MState × List Effect) :=
  if s.isBatching then .error "redo is not allowed during a batch"
  else
    match s.redoStack.getLast? with
    | none => .ok (s, [])
    | some historyItem =>
      let s := { s with redoStack := s.redoStack.dropLast, isHistoryPaused := false }
      match apply deps s historyItem true with
      | .error e => .error e
      | .ok (s, item2, result) =>
        let p1 := notify s result.storageUpdates result.presence []
        let s := { p1.1 with undoStack := p1.1.undoStack ++ [result.reverse] }
        let e2 := onHistoryChange s
        let opsToBuffer := item2.filterMap (fun i => match i with
          | HItem.op o => some o
          | HItem.presence _ => none)
        let s := { s with bufferStorageOperations := s.bufferStorageOperations ++ opsToBuffer }
        match tryFlushing deps s with
        | .error e => .error e
        | .ok (s, e3) => .ok (s, p1.2 ++ e2 ++ e3)

/-- Step one of the `finally` block of `batch(callback)`: drop the batching
flag and append the accumulated reverse ops as one history entry when there
are any. -/
def batchHistoryStep (s1 : MState) : MState × List Effect :=
  let s : MState := { s1 with isBatching := false }
  if s.batchReverseOps.isEmpty then (s, []) else addToUndoStack s s.batchReverseOps

/-- Step two: clear the redo stack when the batch produced ops. -/
def batchRedoStep (s : MState) : MState :=
  if s.batchOps.isEmpty then s else { s with redoStack := [] }

/-- Step three: dispatch the batch ops when there are any. -/
def batchDispatchStep (deps : Deps) (s : MState) : Except String (MState × List Effect) :=
  if s.batchOps.isEmpty then .ok (s, []) else dispatch deps s s.batchOps

/-- The `finally` block of `batch(callback)`: append the accumulated reverse
ops as one history entry, clear the redo stack when ops were produced,
dispatch the ops, emit one coalesced notification, reset `state.batch`, and
flush. -/
def batchFinally (deps : Deps) (s1 : MState) : Except String (MState × List Effect) :=
  let p1 := batchHistoryStep s1
  match batchDispatchStep deps (batchRedoStep p1.1) with
  | .error e => .error e
  | .ok (s, e2) =>
    let p3 := notify s s.batchStorageUpdates s.batchUpdatesPresence []
    let s := { p3.1 with batchOps := [], batchReverseOps := [],
                         batchUpdatesPresence := false, batchStorageUpdates := [] }
    match tryFlushing deps s with
    | .error e => .error e
    | .ok (s, e4) => .ok (s, p1.2 ++ e2 ++ p3.2 ++ e4)

/-- `batch(callback)`: forbidden while already batching; run the callback
with `isBatching` set (modelled as a pure state transformer) and finish with
the `finally` block. -/
def batch (deps : Deps) (f : MState → MState) (s : MState) : Except String (MState × List Effect) :=
  if s.isBatching then .error "batch should not be called during a batch"
  else batchFinally deps (f { s with isBatching := true })

/-- `pauseHistory()`. -/
def pauseHistory (s : MState) : MState :=
  { s with pausedHistory := [], isHistoryPaused := true }

/-- `resumeHistory()`: unpause and flush the paused items as one entry. -/
def resumeHistory (s : MState) : MState × List Effect :=
  let s := { s with isHistoryPaused := false }
  let p :=
    if s.pausedHistory.isEmpty then (s, ([] : List Effect))
    else addToUndoStack s s.pausedHistory
  ({ p.1 with pausedHistory := [] }, p.2)

/-- `defaultState(initialPresence, initialStorage)` (the storage root is not
part of the modelled state; `hasRoot` starts false).  The presence buffer
starts as a full update of the initial presence. -/
def defaultState (initialPresence : Option PObj) : MState :=
  { connection := Connection.closed
    token := none
    lastConnectionId := none
    socket := none
    lastFlushTime := 0
    bufferPresence := some (PresenceBuf.full (initialPresence.getD emptyP))
    bufferMessages := []
    bufferStorageOperations := []
    flushTimeout := none
    reconnectTimeout := 0
    pongTimeout := 0
    heartbeatInterval := 0
    me := initialPresence.getD emptyP
    users := fun _ => none
    othersView := fun _ => none
    numberOfRetry := 0
    hasRoot := false
    clock := 0
    opClock := 0
    undoStack := []
    redoStack := []
    isHistoryPaused := false
    pausedHistory := []
    isBatching := false
    batchOps := []
    batchReverseOps := []
    batchUpdatesPresence := false
    batchStorageUpdates := []
    offlineOperations := [] }

/-! Concrete instantiations used by the counterexamples and witnesses. -/

/-- A dependency instantiation: no CRDT engine activity, last-value merge,
clock at 0, 100ms throttle. -/
def deps0 : Deps :=
  { applyOp := fun _ _ => none, merge := fun _ n => n, now := 0, throttleDelay := 100 }

/-- A one-key presence override `{x: 1}`. -/
def ovP : PObj := fun k => if k = "x" then some 1 else none

/-- The public operations exercised by the counterexample traces. -/
inductive TraceOp where
  | updP (addToHistory : Bool)
  | undoOp
  | redoOp

/-- Run one public operation, keeping only the state. -/
def stepT (deps : Deps) (ov : PObj) (s : MState) (o : TraceOp) : Except String MState :=
  match o with
  | .updP h => (updatePresence deps s ov h).map Prod.fst
  | .undoOp => (undo deps s).map Prod.fst
  | .redoOp => (redo deps s).map Prod.fst

/-- Run a sequence of public operations from a starting state. -/
def runTrace (deps : Deps) (ov : PObj) (s : MState) (ops : List TraceOp) : Except String MState :=
  match ops with
  | [] => .ok s
  | o :: rest =>
    match stepT deps ov s o with
    | .error e => .error e
    | .ok s' => runTrace deps ov s' rest

/-- Fifty historied presence updates, one undo, one more historied presence
update, one redo. -/
def traceC1 : List TraceOp :=
  List.replicate 50 (TraceOp.updP true) ++ [TraceOp.undoOp, TraceOp.updP true, TraceOp.redoOp]

/-- A state whose undo stack already holds 50 entries. -/
def sFull : MState := { defaultState none with undoStack := List.replicate 50 [] }

/-- A state with a non-empty redo stack (as after an undo). -/
def sRedo : MState := { defaultState none with redoStack := [[HItem.presence emptyP]] }

/-- An op with an op id, as a generic storage op. -/
def opGen : Op :=
  { type := OpCode.updateObject, opId := some "1:7", id := some "0:0", parentId := none }

/-- A state at the end of a batch callback that produced one op, with a
non-empty redo stack. -/
def sBat : MState :=
  { defaultState none with isBatching := true, batchOps := [opGen],
                           redoStack := [[HItem.presence emptyP]] }

/-- A user record for actor 7 whose initial presence has not arrived
(as created by a ROOM_STATE message). -/
def u7 : UserEntry :=
  { connectionId := 7, id := some "u7", info := none, presence := none,
    hasReceivedInitialPresence := false }

/-- A user record for actor 7 with initial presence received. -/
def u7ready : UserEntry :=
  { connectionId := 7, id := some "u7", info := none, presence := some ovP,
    hasReceivedInitialPresence := true }

/-- A state knowing actor 7 without initial presence. -/
def sU7 : MState :=
  { defaultState none with users := fun a => if a = 7 then some u7 else none }

/-- A state knowing actor 7 with initial presence received. -/
def sU7ready : MState :=
  { defaultState none with users := fun a => if a = 7 then some u7ready else none }

/-- A non-targeted presence update from actor 7. -/
def msg7 : UpdatePresenceMsg := { actor := 7, data := ovP, targetActor := none }

/-- A presence update from actor 7 targeted at this client (actor 1). -/
def msg7t : UpdatePresenceMsg := { actor := 7, data := ovP, targetActor := some 1 }

/-- A close event in the 4000-4100 server-error range. -/
def ev4001 : CloseEvent := { code := 4001, wasClean := true, reason := "kicked" }

/-- A terminal close event. -/
def ev4999 : CloseEvent := { code := CLOSE_WITHOUT_RETRY, wasClean := true, reason := "bye" }

/-- An abnormal-closure event (fast-backoff path). -/
def ev1006 : CloseEvent := { code := 1006, wasClean := false, reason := "" }

/-- A top-level `CREATE_OBJECT` op creating node "1:0". -/
def opC1 : Op :=
  { type := OpCode.createObject, opId := some "1:10", id := some "1:0", parentId := some "0:0" }

/-- A `CREATE_REGISTER` op creating node "1:1" under "1:0". -/
def opC2 : Op :=
  { type := OpCode.createRegister, opId := some "1:11", id := some "1:1", parentId := some "1:0" }

/-- The reverse op the engine produces for `opC1`. -/
def revA : Op :=
  { type := OpCode.deleteCrdt, opId := none, id := some "1:0", parentId := none }

/-- The reverse op the engine produces for `opC2`. -/
def revB : Op :=
  { type := OpCode.deleteCrdt, opId := none, id := some "1:1", parentId := none }

/-- The engine result for `opC1`: the top-level node "1:0" was created. -/
def akA : ApplyOk :=
  { modified := { nodeId := "1:0", parentId := none, payload := 0 }, reverse := [revA] }

/-- The engine result for `opC2`: node "1:1" was created under "1:0". -/
def akB : ApplyOk :=
  { modified := { nodeId := "1:1", parentId := some "1:0", payload := 0 }, reverse := [revB] }

/-- A CRDT engine behaviour: `opC1` creates the top-level node "1:0"
(reverse `revA`), `opC2` creates "1:1" under it (reverse `revB`). -/
def engineC5 : Op → OpSource → Option ApplyOk :=
  fun o _ =>
    if o = opC1 then some akA
    else if o = opC2 then some akB
    else none

/-- Dependencies running the `engineC5` engine. -/
def depsC5 : Deps :=
  { applyOp := engineC5, merge := fun _ n => n, now := 0, throttleDelay := 100 }

/-- Two distinct buffered ops carrying the same op id "1:0". -/
def opX : Op :=
  { type := OpCode.updateObject, opId := some "1:0", id := some "0:0", parentId := none }

/-- See `opX`: same op id, different target. -/
def opY : Op :=
  { type := OpCode.updateObject, opId := some "1:0", id := some "0:1", parentId := none }

/-- A disconnected state whose storage-op buffer holds two distinct ops with
the same op id. -/
def sC6 : MState := { defaultState none with bufferStorageOperations := [opX, opY] }

/-- An op with op id "a". -/
def opA : Op :=
  { type := OpCode.updateObject, opId := some "a", id := some "0:0", parentId := none }

/-- An op with op id "b". -/
def opB : Op :=
  { type := OpCode.deleteCrdt, opId := some "b", id := some "0:1", parentId := none }

/-- A disconnected state buffering two ops with distinct op ids. -/
def sw6 : MState := { defaultState none with bufferStorageOperations := [opA, opB] }

/-- A state whose connection is `connecting` (as set by
`authenticationSuccess` on the very first connection: `lastConnectionId` is
still `null` and the presence buffer has been emptied by nothing yet; here
it is emptied to make the handler's write observable). -/
def s8 : MState :=
  { defaultState (some ovP) with connection := Connection.connecting 1 none none,
                                 socket := some WS_OPEN, bufferPresence := none }

/-- A paused state with one-entry undo and redo stacks and pending paused
history. -/
def sW10 : MState :=
  { defaultState none with undoStack := [[HItem.presence emptyP]],
                           redoStack := [[HItem.presence emptyP]],
                           isHistoryPaused := true,
                           pausedHistory := [HItem.presence ovP] }

/-- Whether an exceptional computation succeeded. -/
def isOkE {α : Type} (e : Except String α) : Bool :=
  match e with
  | .ok _ => true
  | .error _ => false

/-! Frame lemmas: fields that the notifier, the flush scheduler and the
apply loop leave untouched. -/

theorem notify_frame (s : MState) (su : List (String × ModifiedInfo)) (p : Bool)
    (o : List OthersEvent) :
    (notify s su p o).1.redoStack = s.redoStack ∧
    (notify s su p o).1.undoStack = s.undoStack ∧
    (notify s su p o).1.pausedHistory = s.pausedHistory ∧
    (notify s su p o).1.isHistoryPaused = s.isHistoryPaused ∧
    (notify s su p o).1.isBatching = s.isBatching ∧
    (notify s su p o).1.batchOps = s.batchOps ∧
    (notify s su p o).1.bufferStorageOperations = s.bufferStorageOperations ∧
    (notify s su p o).1.offlineOperations = s.offlineOperations := by
  unfold notify
  split <;> simp

theorem tryFlushing_frame (deps : Deps) (s s' : MState) (eff : List Effect)
    (h : tryFlushing deps s = .ok (s', eff)) :
    s'.redoStack = s.redoStack ∧ s'.undoStack = s.undoStack ∧
    s'.pausedHistory = s.pausedHistory ∧ s'.isHistoryPaused = s.isHistoryPaused ∧
    s'.isBatching = s.isBatching ∧ s'.batchOps = s.batchOps ∧
    s'.batchStorageUpdates = s.batchStorageUpdates ∧
    s'.batchUpdatesPresence = s.batchUpdatesPresence := by
  unfold tryFlushing at h
  split at h
  · exact absurd h (by simp)
  · dsimp only [] at h
    split at h
    · obtain ⟨h1, -⟩ := Prod.mk.injEq .. ▸ (Except.ok.inj h)
      subst h1; simp
    · split at h
      · split at h
        · obtain ⟨h1, -⟩ := Prod.mk.injEq .. ▸ (Except.ok.inj h)
          subst h1; simp
        · obtain ⟨h1, -⟩ := Prod.mk.injEq .. ▸ (Except.ok.inj h)
          subst h1; simp
      · obtain ⟨h1, -⟩ := Prod.mk.injEq .. ▸ (Except.ok.inj h)
        subst h1; simp

theorem generateOpId_frame (s : MState) (oid : String) (s' : MState)
    (h : generateOpId s = .ok (oid, s')) :
    s'.pausedHistory = s.pausedHistory ∧ s'.isHistoryPaused = s.isHistoryPaused ∧
    s'.undoStack = s.undoStack ∧ s'.redoStack = s.redoStack ∧
    s'.isBatching = s.isBatching := by
  unfold generateOpId at h
  split at h
  · exact absurd h (by simp)
  · obtain ⟨-, h2⟩ := Prod.mk.injEq .. ▸ (Except.ok.inj h)
    subst h2; simp

theorem assignOpId_frame (s : MState) (o : Op) (o' : Op) (s' : MState)
    (h : assignOpId s o = .ok (o', s')) :
    s'.pausedHistory = s.pausedHistory ∧ s'.isHistoryPaused = s.isHistoryPaused ∧
    s'.undoStack = s.undoStack ∧ s'.redoStack = s.redoStack ∧
    s'.isBatching = s.isBatching := by
  unfold assignOpId at h
  split at h
  · split at h
    · exact absurd h (by simp)
    · rename_i oid s1 heq
      obtain ⟨-, h2⟩ := Prod.mk.injEq .. ▸ (Except.ok.inj h)
      subst h2
      exact generateOpId_frame _ _ _ heq
  · obtain ⟨-, h2⟩ := Prod.mk.injEq .. ▸ (Except.ok.inj h)
    subst h2; simp

theorem opSourceFor_frame (isLocal : Bool) (s : MState) (o : Op) (src : OpSource) (s' : MState)
    (h : opSourceFor isLocal s o = .ok (src, s')) :
    s'.pausedHistory = s.pausedHistory ∧ s'.isHistoryPaused = s.isHistoryPaused ∧
    s'.undoStack = s.undoStack ∧ s'.redoStack = s.redoStack ∧
    s'.isBatching = s.isBatching := by
  unfold opSourceFor at h
  split at h
  · obtain ⟨-, h2⟩ := Prod.mk.injEq .. ▸ (Except.ok.inj h)
    subst h2; simp
  · split at h
    · exact absurd h (by simp)
    · obtain ⟨-, h2⟩ := Prod.mk.injEq .. ▸ (Except.ok.inj h)
      subst h2; simp

theorem applyGo_frame (deps : Deps) (isLocal : Bool) (l : HistoryItem) :
    ∀ s acc s' acc', applyGo deps isLocal s acc l = .ok (s', acc') →
      s'.pausedHistory = s.pausedHistory ∧ s'.isHistoryPaused = s.isHistoryPaused ∧
      s'.undoStack = s.undoStack ∧ s'.redoStack = s.redoStack ∧
      s'.isBatching = s.isBatching := by
  induction l with
  | nil =>
    intro s acc s' acc' h
    unfold applyGo at h
    obtain ⟨h1, -⟩ := Prod.mk.injEq .. ▸ (Except.ok.inj h)
    subst h1; exact ⟨rfl, rfl, rfl, rfl, rfl⟩
  | cons hd tl ih =>
    intro s acc s' acc' h
    cases hd with
    | presence data =>
      unfold applyGo at h
      dsimp only [] at h
      have := ih _ _ _ _ h
      simpa using this
    | op o =>
      unfold applyGo at h
      split at h
      · exact absurd h (by simp)
      · rename_i o1 s1 heq1
        split at h
        · exact absurd h (by simp)
        · rename_i src s2 heq2
          have f1 := assignOpId_frame _ _ _ _ heq1
          have f2 := opSourceFor_frame _ _ _ _ _ heq2
          split at h
          · have := ih _ _ _ _ h
            simp_all
          · dsimp only [] at h
            have := ih _ _ _ _ h
            simp_all

theorem apply_frame (deps : Deps) (s : MState) (item : HistoryItem) (isLocal : Bool)
    (s' : MState) (item2 : HistoryItem) (res : ApplyResultT)
    (h : apply deps s item isLocal = .ok (s', item2, res)) :
    s'.pausedHistory = s.pausedHistory ∧ s'.isHistoryPaused = s.isHistoryPaused ∧
    s'.undoStack = s.undoStack ∧ s'.redoStack = s.redoStack ∧
    s'.isBatching = s.isBatching := by
  unfold apply at h
  split at h
  · exact absurd h (by simp)
  · rename_i s1 acc heq
    obtain ⟨h1, -⟩ := Prod.mk.injEq .. ▸ (Except.ok.inj h)
    subst h1
    exact applyGo_frame deps isLocal item _ _ _ _ heq

theorem addToUndoStack_frame (s : MState) (i : HistoryItem) :
    ((addToUndoStack s i).1).redoStack = s.redoStack ∧
    ((addToUndoStack s i).1).batchOps = s.batchOps ∧
    ((addToUndoStack s i).1).batchStorageUpdates = s.batchStorageUpdates ∧
    ((addToUndoStack s i).1).batchUpdatesPresence = s.batchUpdatesPresence ∧
    ((addToUndoStack s i).1).isBatching = s.isBatching ∧
    ((addToUndoStack s i).1).bufferStorageOperations = s.bufferStorageOperations := by
  unfold addToUndoStack
  dsimp only []
  split <;> split <;> simp

/-- C1, counterexample.  The claimed invariant `undoStack.length <= 50` fails
on a reachable run: from `defaultState`, fifty historied presence updates
fill the undo stack to 50; one `undo` leaves 49 entries and a 1-entry redo
stack; one more historied presence update refills the undo stack to 50
without clearing the redo stack (`updatePresence` never clears it); `redo`
then pushes its reverse entry directly, yielding 51 entries. -/
theorem claim1_counterexample :
    (runTrace deps0 ovP (defaultState none) traceC1).map (fun s => s.undoStack.length)
      = Except.ok 51 := by rfl

/-- C1, amended: every append that goes through `addToUndoStack` preserves
`undoStack.length <= 50`, shifting the oldest entry on overflow (when
history is not paused); the cap is not applied by the direct push in
`redo()`. -/
theorem claim1_amended (s : MState) (item : HistoryItem) (h : s.undoStack.length ≤ 50) :
    ((addToUndoStack s item).1).undoStack.length ≤ 50 ∧
    (s.undoStack.length = 50 → s.isHistoryPaused = false →
      ((addToUndoStack s item).1).undoStack = s.undoStack.tail ++ [item]) := by
  unfold addToUndoStack
  dsimp only []
  constructor
  · split <;> split <;> simp_all <;> omega
  · intro h50 hp
    split
    · split
      · simp_all
      · simp_all
    · rename_i hlt
      exact absurd (le_of_eq h50.symm) hlt

/-- C1, witness for the amended theorem at a full stack. -/
theorem claim1_witness :
    sFull.undoStack.length ≤ 50 ∧ sFull.isHistoryPaused = false ∧
    ((addToUndoStack sFull [HItem.presence emptyP]).1).undoStack.length ≤ 50 ∧
    ((addToUndoStack sFull [HItem.presence emptyP]).1).undoStack
      = sFull.undoStack.tail ++ [[HItem.presence emptyP]] := by
  have h : sFull.undoStack.length ≤ 50 := by decide
  refine ⟨h, rfl, (claim1_amended sFull _ h).1, (claim1_amended sFull _ h).2 (by decide) rfl⟩

/-- C2, counterexample.  `updatePresence` outside a batch is a local mutation
outside undo/redo, yet it leaves a non-empty redo stack untouched: from
`defaultState`, a historied presence update followed by `undo` puts one
entry on the redo stack, and a further historied presence update leaves it
there. -/
theorem claim2_counterexample :
    (runTrace deps0 ovP (defaultState none)
        [TraceOp.updP true, TraceOp.undoOp, TraceOp.updP true]).map
      (fun s => s.redoStack.length) = Except.ok 1 := by rfl

/-- C2, amended: storage mutations routed through `storageDispatch` outside
a batch empty the redo stack, as does the completion of a batch that
produced at least one op; `updatePresence` outside a batch, however, leaves
the redo stack unchanged. -/
theorem dispatch_frame (deps : Deps) (s : MState) (ops : List Op) (s' : MState)
    (eff : List Effect) (h : dispatch deps s ops = .ok (s', eff)) :
    s'.redoStack = s.redoStack ∧ s'.undoStack = s.undoStack ∧
    s'.pausedHistory = s.pausedHistory ∧ s'.isHistoryPaused = s.isHistoryPaused ∧
    s'.isBatching = s.isBatching ∧ s'.batchOps = s.batchOps ∧
    s'.batchStorageUpdates = s.batchStorageUpdates ∧
    s'.batchUpdatesPresence = s.batchUpdatesPresence := by
  unfold dispatch at h
  have := tryFlushing_frame _ _ _ _ h
  simpa using this

theorem batchHistoryStep_frame (s : MState) :
    (batchHistoryStep s).1.batchOps = s.batchOps ∧
    (batchHistoryStep s).1.redoStack = s.redoStack ∧
    (batchHistoryStep s).1.batchStorageUpdates = s.batchStorageUpdates ∧
    (batchHistoryStep s).1.batchUpdatesPresence = s.batchUpdatesPresence := by
  unfold batchHistoryStep
  dsimp only []
  split
  · simp
  · have := addToUndoStack_frame { s with isBatching := false } s.batchReverseOps
    simp_all

theorem batchRedoStep_spec (s : MState) (h : s.batchOps.isEmpty = false) :
    (batchRedoStep s).redoStack = [] ∧ (batchRedoStep s).batchOps = s.batchOps := by
  unfold batchRedoStep
  rw [h]
  simp

theorem batchDispatchStep_frame (deps : Deps) (s : MState) (s' : MState) (eff : List Effect)
    (h : batchDispatchStep deps s = .ok (s', eff)) :
    s'.redoStack = s.redoStack ∧ s'.batchStorageUpdates = s.batchStorageUpdates ∧
    s'.batchUpdatesPresence = s.batchUpdatesPresence := by
  unfold batchDispatchStep at h
  split at h
  · obtain ⟨h1, -⟩ := Prod.mk.injEq .. ▸ (Except.ok.inj h)
    subst h1; simp
  · unfold dispatch at h
    have := tryFlushing_frame _ _ _ _ h
    simp_all

theorem claim2_amended (deps : Deps) :
    (∀ s ops reverse su s' eff, s.isBatching = false →
        storageDispatch deps s ops reverse su = .ok (s', eff) → s'.redoStack = []) ∧
    (∀ s s' eff, batchFinally deps s = .ok (s', eff) → s.batchOps.isEmpty = false →
        s'.redoStack = []) ∧
    (∀ s ov ah s' eff, s.isBatching = false →
        updatePresence deps s ov ah = .ok (s', eff) → s'.redoStack = s.redoStack) := by
  refine ⟨?_, ?_, ?_⟩
  · intro s ops reverse su s' eff hb h
    unfold storageDispatch at h
    split at h
    next hcond => rw [hb] at hcond; simp at hcond
    next =>
      dsimp only [] at h
      split at h
      next heq => exact absurd h (by simp)
      next s2 e2 heq =>
        obtain ⟨h1, -⟩ := Prod.mk.injEq .. ▸ (Except.ok.inj h)
        subst h1
        have hd := dispatch_frame _ _ _ _ _ heq
        have hn := notify_frame s2 su false []
        simp_all
  · intro s s' eff h hne
    unfold batchFinally at h
    dsimp only [] at h
    split at h
    next heq => exact absurd h (by simp)
    next s2 e2 heq =>
      have hbo : (batchHistoryStep s).1.batchOps.isEmpty = false := by
        have := batchHistoryStep_frame s
        simp_all
      have hrd := batchRedoStep_spec (batchHistoryStep s).1 hbo
      have hfr := batchDispatchStep_frame deps _ _ _ heq
      split at h
      next heq2 => exact absurd h (by simp)
      next s3 e4 heq2 =>
        have hfr2 := tryFlushing_frame _ _ _ _ heq2
        obtain ⟨h1, -⟩ := Prod.mk.injEq .. ▸ (Except.ok.inj h)
        subst h1
        have hn := notify_frame s2 s2.batchStorageUpdates s2.batchUpdatesPresence []
        simp_all
  · intro s ov ah s' eff hb h
    unfold updatePresence at h
    dsimp only [] at h
    split at h
    next hcond => rw [hb] at hcond; simp at hcond
    next =>
      split at h
      next heq => exact absurd h (by simp)
      next s2 e2 heq =>
        obtain ⟨h1, -⟩ := Prod.mk.injEq .. ▸ (Except.ok.inj h)
        subst h1
        have hd := tryFlushing_frame _ _ _ _ heq
        have ha := addToUndoStack_frame s2
          [HItem.presence (fun k => if (ov k).isSome then s.me k else none)]
        by_cases hah : ah <;> simp_all [notify_frame]

/-- C2, witness for the amended theorem: a storage dispatch, a batch
completion with an op, and a presence update, each at a state with a
non-empty redo stack. -/
theorem claim2_witness :
    (match storageDispatch deps0 sRedo [opGen] [opGen] [] with
     | .ok (s', _) => s'.redoStack = []
     | .error _ => False) ∧
    (match batchFinally deps0 sBat with
     | .ok (s', _) => s'.redoStack = []
     | .error _ => False) ∧
    (match updatePresence deps0 sRedo ovP true with
     | .ok (s', _) => s'.redoStack = sRedo.redoStack
     | .error _ => False) := by
  refine ⟨?_, ?_, ?_⟩
  · cases h : storageDispatch deps0 sRedo [opGen] [opGen] [] with
    | error e =>
      have hok : isOkE (storageDispatch deps0 sRedo [opGen] [opGen] []) = true := by rfl
      rw [h] at hok
      simp [isOkE] at hok
    | ok r =>
      obtain ⟨s', eff⟩ := r
      exact (claim2_amended deps0).1 sRedo [opGen] [opGen] [] s' eff rfl h
  · cases h : batchFinally deps0 sBat with
    | error e =>
      have hok : isOkE (batchFinally deps0 sBat) = true := by rfl
      rw [h] at hok
      simp [isOkE] at hok
    | ok r =>
      obtain ⟨s', eff⟩ := r
      exact (claim2_amended deps0).2.1 sBat s' eff h rfl
  · cases h : updatePresence deps0 sRedo ovP true with
    | error e =>
      have hok : isOkE (updatePresence deps0 sRedo ovP true) = true := by rfl
      rw [h] at hok
      simp [isOkE] at hok
    | ok r =>
      obtain ⟨s', eff⟩ := r
      exact (claim2_amended deps0).2.2 sRedo ovP true s' eff rfl h

/-- C3: an inbound `UPDATE_PRESENCE` without `targetActor` for an actor whose
record exists with `hasReceivedInitialPresence = false` is dropped (users
unchanged, no event); otherwise a fresh record with
`hasReceivedInitialPresence = true` and `presence = data` is created (no
record), or the data is merged into the existing record's presence, and an
update others-event is produced. -/
theorem claim3 (s : MState) (m : UpdatePresenceMsg) :
    (∀ u, s.users m.actor = some u → m.targetActor = none →
        u.hasReceivedInitialPresence = false →
        onUpdatePresenceMessage s m = (s, none)) ∧
    (s.users m.actor = none →
        (onUpdatePresenceMessage s m).1.users m.actor
            = some { connectionId := m.actor, presence := some m.data, id := none,
                     info := none, hasReceivedInitialPresence := true } ∧
        (∀ a, a ≠ m.actor → (onUpdatePresenceMessage s m).1.users a = s.users a) ∧
        (onUpdatePresenceMessage s m).2
            = some (OthersEvent.update m.data
                { connectionId := m.actor, presence := some m.data, id := none,
                  info := none, hasReceivedInitialPresence := true })) ∧
    (∀ u, s.users m.actor = some u →
        (m.targetActor ≠ none ∨ u.hasReceivedInitialPresence = true) →
        (onUpdatePresenceMessage s m).1.users m.actor
            = some { id := u.id, info := u.info, connectionId := m.actor,
                     presence := some (pmerge (u.presence.getD emptyP) m.data),
                     hasReceivedInitialPresence := true } ∧
        (∀ a, a ≠ m.actor → (onUpdatePresenceMessage s m).1.users a = s.users a) ∧
        (onUpdatePresenceMessage s m).2
            = some (OthersEvent.update m.data
                { id := u.id, info := u.info, connectionId := m.actor,
                  presence := some (pmerge (u.presence.getD emptyP) m.data),
                  hasReceivedInitialPresence := true })) := by
  refine ⟨?_, ?_, ?_⟩
  · intro u hu ht hr
    simp [onUpdatePresenceMessage, hu, ht, hr]
  · intro hnone
    unfold onUpdatePresenceMessage
    simp only [hnone]
    constructor
    · simp
    constructor
    · intro a ha
      simp [if_neg ha]
    · simp
  · intro u hu hcase
    unfold onUpdatePresenceMessage
    simp only [hu]
    have hcond : (m.targetActor.isNone &&
        match some u with
        | some u => !u.hasReceivedInitialPresence
        | none => false) = false := by
      rcases hcase with h1 | h1
      · have : m.targetActor.isNone = false := by
          cases hm : m.targetActor
          · exact absurd hm h1
          · rfl
        simp [this]
      · simp [h1]
    rw [hcond]
    simp only [Bool.false_eq_true, if_false]
    refine ⟨by simp, ?_, by simp⟩
    intro a ha
    simp [if_neg ha]

/-- C3, witness: a dropped non-targeted update for a not-yet-initialized
actor, a record creation for an unknown actor, and a merge into a known
actor's presence. -/
theorem claim3_witness :
    onUpdatePresenceMessage sU7 msg7 = (sU7, none) ∧
    (onUpdatePresenceMessage (defaultState none) msg7).1.users 7
        = some { connectionId := 7, presence := some ovP, id := none, info := none,
                 hasReceivedInitialPresence := true } ∧
    (onUpdatePresenceMessage sU7ready msg7).1.users 7
        = some { id := u7ready.id, info := u7ready.info, connectionId := 7,
                 presence := some (pmerge (u7ready.presence.getD emptyP) ovP),
                 hasReceivedInitialPresence := true } :=
  ⟨(claim3 sU7 msg7).1 u7 rfl rfl rfl,
   ((claim3 (defaultState none) msg7).2.1 rfl).1,
   ((claim3 sU7ready msg7).2.2 u7ready rfl (Or.inr rfl)).1⟩

/-- C4: on socket close, the users map is cleared and a reset others-event
comes first; codes 4000-4100 go failed -> error listeners -> unavailable
with a slow-backoff reconnect; `CLOSE_WITHOUT_RETRY` goes to closed with no
reconnect; anything else goes unavailable with a fast-backoff reconnect. -/
theorem claim4 (s : MState) (ev : CloseEvent) :
    ((onClose s ev).1.users = (fun _ => none) ∧
     (onClose s ev).2.head? = some (Effect.othersEvent OthersEvent.reset)) ∧
    (4000 ≤ ev.code → ev.code ≤ 4100 →
        (onClose s ev).2 = [Effect.othersEvent OthersEvent.reset,
                            Effect.connectionChanged ConnStatus.failed,
                            Effect.errorFired ev.reason ev.code,
                            Effect.connectionChanged ConnStatus.unavailable,
                            Effect.scheduleReconnect (getRetryDelay s true)] ∧
        (onClose s ev).1.connection = Connection.unavailable ∧
        (onClose s ev).1.numberOfRetry = s.numberOfRetry + 1) ∧
    (ev.code = CLOSE_WITHOUT_RETRY →
        (onClose s ev).2 = [Effect.othersEvent OthersEvent.reset,
                            Effect.connectionChanged ConnStatus.closed] ∧
        (onClose s ev).1.connection = Connection.closed) ∧
    (¬(4000 ≤ ev.code ∧ ev.code ≤ 4100) → ev.code ≠ CLOSE_WITHOUT_RETRY →
        (onClose s ev).2 = [Effect.othersEvent OthersEvent.reset,
                            Effect.connectionChanged ConnStatus.unavailable,
                            Effect.scheduleReconnect (getRetryDelay s false)] ∧
        (onClose s ev).1.connection = Connection.unavailable) := by
  refine ⟨?_, ?_, ?_, ?_⟩
  · unfold onClose
    dsimp only []
    split
    · constructor <;> simp [notify, updateConnection]
    · split
      · constructor <;> simp [notify, updateConnection]
      · constructor <;> simp [notify, updateConnection]
  · intro h1 h2
    unfold onClose
    dsimp only []
    rw [if_pos ⟨h1, h2⟩]
    refine ⟨?_, ?_, ?_⟩ <;> simp [notify, updateConnection, getRetryDelay, Connection.status]
  · intro h3
    unfold onClose
    dsimp only []
    rw [if_neg (by rw [h3]; decide), if_pos h3]
    constructor <;> simp [notify, updateConnection, Connection.status]
  · intro h4 h5
    unfold onClose
    dsimp only []
    rw [if_neg h4, if_neg h5]
    constructor <;> simp [notify, updateConnection, getRetryDelay, Connection.status]

/-- C4, witness: a 4001 "kicked" close, a terminal close, and an abnormal
1006 close, from the default state. -/
theorem claim4_witness :
    (onClose (defaultState none) ev4001).2
        = [Effect.othersEvent OthersEvent.reset,
           Effect.connectionChanged ConnStatus.failed,
           Effect.errorFired "kicked" 4001,
           Effect.connectionChanged ConnStatus.unavailable,
           Effect.scheduleReconnect 2000] ∧
    (onClose (defaultState none) ev4999).2
        = [Effect.othersEvent OthersEvent.reset,
           Effect.connectionChanged ConnStatus.closed] ∧
    (onClose (defaultState none) ev1006).2
        = [Effect.othersEvent OthersEvent.reset,
           Effect.connectionChanged ConnStatus.unavailable,
           Effect.scheduleReconnect 250] :=
  ⟨((claim4 (defaultState none) ev4001).2.1 (by decide) (by decide)).1,
   ((claim4 (defaultState none) ev4999).2.2.1 rfl).1,
   ((claim4 (defaultState none) ev1006).2.2.2 (by decide) (by decide)).1⟩

/-- C5, counterexample: in `apply`, the engine reports `opC2` as modified
with reverse op `revB`, but because the modified node's parent "1:0" was
created earlier in the same apply (by `opC1`), the suppression branch skips
the `reverse.unshift` as well: the accumulated reverse list is `[revA]`
only, contrary to the claim that the reverse ops are unshifted even in the
suppressed case. -/
theorem claim5_counterexample :
    engineC5 opC2 OpSource.UNDOREDO_RECONNECT
      = some { modified := { nodeId := "1:1", parentId := some "1:0", payload := 0 },
               reverse := [revB] } ∧
    (match apply depsC5 (defaultState none) [HItem.op opC1, HItem.op opC2] true with
     | .ok (_, _, res) => res.reverse
     | .error _ => [HItem.op revB]) = [HItem.op revA] ∧
    revA ≠ revB := ⟨by rfl, by rfl, by decide⟩

/-- C5, amended: for a modified op item the engine's reverse ops are
unshifted onto the accumulating reverse list exactly when the per-node
storage update is not suppressed, i.e. when the modified node's parent is
the root or is not in `createdNodeIds`; when the parent was created earlier
in the same apply, the reverse ops are suppressed together with the
update. -/
theorem claim5_amended (deps : Deps) (s : MState) (o1 o2 : Op) (a1 a2 : ApplyOk)
    (h1 : o1.opId ≠ none) (h2 : o2.opId ≠ none)
    (e1 : deps.applyOp o1 OpSource.UNDOREDO_RECONNECT = some a1)
    (e2 : deps.applyOp o2 OpSource.UNDOREDO_RECONNECT = some a2)
    (hc : o1.type = OpCode.createObject ∨ o1.type = OpCode.createList ∨
          o1.type = OpCode.createMap)
    (hroot : a1.modified.parentId = none) :
    (apply deps s [HItem.op o1, HItem.op o2] true).map (fun r => r.2.2.reverse)
      = .ok (if a2.modified.parentId = some a1.modified.nodeId
             then a1.reverse.map HItem.op
             else a2.reverse.map HItem.op ++ a1.reverse.map HItem.op) := by
  have ha1 : assignOpId s o1 = .ok (o1, s) := by
    unfold assignOpId; rw [if_neg h1]
  have ha2 : ∀ st, assignOpId st o2 = .ok (o2, st) := fun st => by
    unfold assignOpId; rw [if_neg h2]
  have hs : ∀ st (o : Op), opSourceFor true st o = .ok (OpSource.UNDOREDO_RECONNECT, st) := by
    intro st o; unfold opSourceFor; simp
  have hcc : (o1.type = OpCode.createList ∨ o1.type = OpCode.createMap ∨
      o1.type = OpCode.createObject) := by tauto
  simp only [apply, applyGo, ha1, ha2, hs, e1, e2, hroot, if_pos hcc]
  rcases hp : a2.modified.parentId with _ | p
  · simp only [hp, Except.map]
    split <;> simp
  · by_cases hpn : p = a1.modified.nodeId
    · subst hpn
      simp only [hp, Except.map, List.contains, List.elem, beq_self_eq_true]
      split <;> simp
    · have hb : (p == a1.modified.nodeId) = false := by simp [hpn]
      simp only [hp, Except.map, List.contains, List.elem, hb]
      split <;> simp [hpn]

/-- C5, witness for the amended theorem at the concrete two-op apply. -/
theorem claim5_witness :
    (apply depsC5 (defaultState none) [HItem.op opC1, HItem.op opC2] true).map
        (fun r => r.2.2.reverse)
      = .ok (if akB.modified.parentId = some akA.modified.nodeId
             then akA.reverse.map HItem.op
             else akB.reverse.map HItem.op ++ akA.reverse.map HItem.op) :=
  claim5_amended depsC5 (defaultState none) opC1 opC2 akA akB (by decide) (by decide)
    (by rfl) (by rfl) (Or.inl rfl) rfl

/-- Setting a key makes it retrievable. -/
theorem mapGet_mapSet_self {β : Type} (m : List (String × β)) (k : String) (v : β) :
    mapGet (mapSet m k v) k = some v := by
  induction m with
  | nil => simp [mapSet, mapGet]
  | cons hd tl ih =>
    obtain ⟨k', v'⟩ := hd
    by_cases hk : k' = k <;> simp [mapSet, mapGet, hk, ih]

/-- Setting one key leaves other keys untouched. -/
theorem mapGet_mapSet_ne {β : Type} (m : List (String × β)) (k k' : String) (v : β)
    (h : k' ≠ k) : mapGet (mapSet m k v) k' = mapGet m k' := by
  have h2 : k ≠ k' := Ne.symm h
  induction m with
  | nil => simp [mapSet, mapGet, h2]
  | cons hd tl ih =>
    obtain ⟨ka, va⟩ := hd
    by_cases hk : ka = k
    · subst hk
      simp [mapSet, mapGet, h2]
    · simp [mapSet, mapGet, hk, ih, h]

/-- The drain loop leaves keys that none of the ops carries untouched. -/
theorem drainOps_preserve (ops : List Op) :
    ∀ m m', drainOps ops m = .ok m' → ∀ id, some id ∉ ops.map Op.opId →
      mapGet m' id = mapGet m id := by
  induction ops with
  | nil =>
    intro m m' h id _
    obtain h1 := Except.ok.inj h
    subst h1; rfl
  | cons hd tl ih =>
    intro m m' h id hid
    unfold drainOps at h
    split at h
    · exact absurd h (by simp)
    · rename_i oid hoid
      have hne : id ≠ oid := by
        intro hcontra
        exact hid (by simp [hcontra, ← hoid])
      rw [ih _ _ h id (by simp_all), mapGet_mapSet_ne _ _ _ _ hne]

/-- After the drain loop, every drained op with a unique op id is bound to
its op id. -/
theorem drainOps_mem (ops : List Op) :
    ∀ m m', drainOps ops m = .ok m' → (ops.map Op.opId).Nodup →
      ∀ op ∈ ops, ∃ id, op.opId = some id ∧ mapGet m' id = some op := by
  induction ops with
  | nil => simp
  | cons hd tl ih =>
    intro m m' h hnd op hop
    unfold drainOps at h
    split at h
    · exact absurd h (by simp)
    · rename_i oid hoid
      have hnd' : hd.opId ∉ tl.map Op.opId ∧ (tl.map Op.opId).Nodup := by
        rw [List.map_cons, List.nodup_cons] at hnd
        exact hnd
      rcases List.mem_cons.mp hop with rfl | hop'
      · refine ⟨oid, hoid, ?_⟩
        have hnotin : some oid ∉ tl.map Op.opId := by
          rw [← hoid]
          exact hnd'.1
        rw [drainOps_preserve tl _ _ h oid hnotin, mapGet_mapSet_self]
      · exact ih _ _ h hnd'.2 op hop'

/-- C6, counterexample: `offlineOperations` is a map keyed by op id, so a
later buffered op with the same op id overwrites an earlier one.  With the
buffer `[opX, opY]` (distinct ops, both op id "1:0"), after `tryFlushing`
the key "1:0" is bound to `opY`; `opX` is not present in
`offlineOperations` keyed by its op id, contrary to the claim. -/
theorem claim6_counterexample :
    opX ∈ sC6.bufferStorageOperations ∧ opX.opId = some "1:0" ∧ opX ≠ opY ∧
    (tryFlushing deps0 sC6).map (fun r => mapGet r.1.offlineOperations "1:0")
      = .ok (some opY) := ⟨by decide, rfl, by decide, by rfl⟩

/-- C6, amended: after a `tryFlushing` call that returns, every op that was
in `buffer.storageOperations` before the call is present in
`offlineOperations` keyed by its op id, provided the buffered op ids are
pairwise distinct (a duplicate id is overwritten by the later op); and when
the socket is absent or not OPEN, the storage-op buffer is emptied and
nothing is sent. -/
theorem claim6_amended (deps : Deps) (s s' : MState) (eff : List Effect)
    (hok : tryFlushing deps s = .ok (s', eff))
    (hnd : (s.bufferStorageOperations.map Op.opId).Nodup) :
    (∀ op ∈ s.bufferStorageOperations, ∃ id, op.opId = some id ∧
        mapGet s'.offlineOperations id = some op) ∧
    (s.socket ≠ some WS_OPEN → s'.bufferStorageOperations = [] ∧ eff = []) := by
  unfold tryFlushing at hok
  split at hok
  · exact absurd hok (by simp)
  · rename_i offline hdrain
    dsimp only [] at hok
    split at hok
    · obtain ⟨h1, h2⟩ := Prod.mk.injEq .. ▸ (Except.ok.inj hok)
      subst h1
      subst h2
      refine ⟨?_, fun _ => ⟨rfl, rfl⟩⟩
      intro op hop
      obtain ⟨id, hid, hget⟩ := drainOps_mem _ _ _ hdrain hnd op hop
      exact ⟨id, hid, hget⟩
    · rename_i hsock
      have hso : s.socket = some WS_OPEN := by
        by_contra hcon
        exact hsock hcon
      split at hok
      · split at hok
        · obtain ⟨h1, -⟩ := Prod.mk.injEq .. ▸ (Except.ok.inj hok)
          subst h1
          refine ⟨?_, fun hns => absurd hso hns⟩
          intro op hop
          exact drainOps_mem _ _ _ hdrain hnd op hop
        · obtain ⟨h1, -⟩ := Prod.mk.injEq .. ▸ (Except.ok.inj hok)
          subst h1
          refine ⟨?_, fun hns => absurd hso hns⟩
          intro op hop
          exact drainOps_mem _ _ _ hdrain hnd op hop
      · obtain ⟨h1, -⟩ := Prod.mk.injEq .. ▸ (Except.ok.inj hok)
        subst h1
        refine ⟨?_, fun hns => absurd hso hns⟩
        intro op hop
        exact drainOps_mem _ _ _ hdrain hnd op hop

/-- C6, witness for the amended theorem: a disconnected flush of two ops
with distinct op ids records both offline, empties the buffer and sends
nothing. -/
theorem claim6_witness :
    (match tryFlushing deps0 sw6 with
     | .ok (s', eff) =>
        mapGet s'.offlineOperations "a" = some opA ∧
        mapGet s'.offlineOperations "b" = some opB ∧
        s'.bufferStorageOperations = [] ∧ eff = []
     | .error _ => False) := by
  cases h : tryFlushing deps0 sw6 with
  | error e =>
    have hok : isOkE (tryFlushing deps0 sw6) = true := by rfl
    rw [h] at hok
    simp [isOkE] at hok
  | ok r =>
    obtain ⟨s', eff⟩ := r
    obtain ⟨hmem, hsock⟩ := claim6_amended deps0 sw6 s' eff h (by decide)
    obtain ⟨ia, hia, hga⟩ := hmem opA (by decide)
    obtain ⟨ib, hib, hgb⟩ := hmem opB (by decide)
    obtain rfl : ia = "a" := by
      have : (some "a" : Option String) = some ia := hia
      exact (Option.some.inj this).symm
    obtain rfl : ib = "b" := by
      have : (some "b" : Option String) = some ib := hib
      exact (Option.some.inj this).symm
    exact ⟨hga, hgb, (hsock (by decide)).1, (hsock (by decide)).2⟩

/-- C7: `connect()` returns `null` and changes nothing (no transition, no
effect) unless the connection is closed or unavailable, in which case it
transitions to authenticating and invokes `effects.authenticate`. -/
theorem claim7 (s : MState) :
    (s.connection.status ≠ ConnStatus.closed → s.connection.status ≠ ConnStatus.unavailable →
        connect s = (s, [], true)) ∧
    (s.connection.status = ConnStatus.closed ∨ s.connection.status = ConnStatus.unavailable →
        (connect s).1.connection = Connection.authenticating ∧
        (connect s).2.1 = [Effect.connectionChanged ConnStatus.authenticating,
                           Effect.authenticate] ∧
        (connect s).2.2 = false) := by
  constructor
  · intro h1 h2
    unfold connect
    rw [if_pos ⟨h1, h2⟩]
  · intro hcase
    unfold connect
    rw [if_neg (by tauto)]
    exact ⟨rfl, rfl, rfl⟩

/-- C7, witness: a no-op `connect` while connecting, and an effective
`connect` from the closed default state. -/
theorem claim7_witness :
    connect s8 = (s8, [], true) ∧
    (connect (defaultState none)).1.connection = Connection.authenticating ∧
    (connect (defaultState none)).2.1
        = [Effect.connectionChanged ConnStatus.authenticating, Effect.authenticate] :=
  ⟨(claim7 s8).1 (by decide) (by decide),
   ((claim7 (defaultState none)).2 (Or.inl rfl)).1,
   ((claim7 (defaultState none)).2 (Or.inl rfl)).2.1⟩

/-- C8: the source guards the full-presence re-broadcast in `onOpen` with
`lastConnectionId !== undefined`, but the field is initialized to `null`
and `null !== undefined` holds in JS, so on the very first connection
(`lastConnectionId` still `null`, here `none`) the handler does install a
full presence buffer — the claim (and the spec's stated intent, "only on
reconnection") says it must not. -/
theorem claim8_bug :
    s8.lastConnectionId = none ∧
    (onOpen deps0 s8).map (fun r => r.1.bufferPresence)
      = .ok (some (PresenceBuf.full s8.me)) ∧
    (onOpen deps0 s8).map (fun r => r.1.lastConnectionId) = .ok (some 1) :=
  ⟨rfl, by rfl, by rfl⟩

/-- C9: with no batch in progress, `undo()` on an empty undo stack and
`redo()` on an empty redo stack return the state unchanged, with no
notification, no send and no other effect. -/
theorem claim9 (deps : Deps) (s : MState) (hb : s.isBatching = false) :
    (s.undoStack = [] → undo deps s = .ok (s, [])) ∧
    (s.redoStack = [] → redo deps s = .ok (s, [])) := by
  constructor
  · intro hu
    unfold undo
    simp only [hb, Bool.false_eq_true, if_false, hu]
    rfl
  · intro hr
    unfold redo
    simp only [hb, Bool.false_eq_true, if_false, hr]
    rfl

/-- C9, witness: the default state. -/
theorem claim9_witness :
    undo deps0 (defaultState none) = .ok (defaultState none, []) ∧
    redo deps0 (defaultState none) = .ok (defaultState none, []) :=
  ⟨(claim9 deps0 (defaultState none) rfl).1 rfl,
   (claim9 deps0 (defaultState none) rfl).2 rfl⟩

/-- C10: an `undo()` or `redo()` that pops a non-empty stack resets
`isHistoryPaused` to false but leaves `pausedHistory` unchanged — the items
accumulated during the pause are neither flushed onto the undo stack (as
`resumeHistory` would do) nor discarded. -/
theorem claim10 (deps : Deps) (s : MState) (hb : s.isBatching = false) :
    (∀ item, s.undoStack.getLast? = some item →
        ∀ s' eff, undo deps s = .ok (s', eff) →
          s'.isHistoryPaused = false ∧ s'.pausedHistory = s.pausedHistory) ∧
    (∀ item, s.redoStack.getLast? = some item →
        ∀ s' eff, redo deps s = .ok (s', eff) →
          s'.isHistoryPaused = false ∧ s'.pausedHistory = s.pausedHistory) := by
  constructor
  · intro item hitem s' eff h
    unfold undo at h
    simp only [hb, Bool.false_eq_true, if_false, hitem] at h
    split at h
    next heq => exact absurd h (by simp)
    next s2 item2 result heq =>
      have hf := apply_frame _ _ _ _ _ _ _ heq
      split at h
      next heq2 => exact absurd h (by simp)
      next s3 e3 heq2 =>
        have hf2 := tryFlushing_frame _ _ _ _ heq2
        obtain ⟨h1, -⟩ := Prod.mk.injEq .. ▸ (Except.ok.inj h)
        subst h1
        have hn := notify_frame s2 result.storageUpdates result.presence []
        simp_all
  · intro item hitem s' eff h
    unfold redo at h
    simp only [hb, Bool.false_eq_true, if_false, hitem] at h
    split at h
    next heq => exact absurd h (by simp)
    next s2 item2 result heq =>
      have hf := apply_frame _ _ _ _ _ _ _ heq
      split at h
      next heq2 => exact absurd h (by simp)
      next s3 e3 heq2 =>
        have hf2 := tryFlushing_frame _ _ _ _ heq2
        obtain ⟨h1, -⟩ := Prod.mk.injEq .. ▸ (Except.ok.inj h)
        subst h1
        have hn := notify_frame s2 result.storageUpdates result.presence []
        simp_all

/-- C10, witness: an undo and a redo from a paused state with pending
paused history and one-entry stacks. -/
theorem claim10_witness :
    (match undo deps0 sW10 with
     | .ok (s', _) => s'.isHistoryPaused = false ∧ s'.pausedHistory = sW10.pausedHistory
     | .error _ => False) ∧
    (match redo deps0 sW10 with
     | .ok (s', _) => s'.isHistoryPaused = false ∧ s'.pausedHistory = sW10.pausedHistory
     | .error _ => False) := by
  constructor
  · cases h : undo deps0 sW10 with
    | error e =>
      have hok : isOkE (undo deps0 sW10) = true := by rfl
      rw [h] at hok
      simp [isOkE] at hok
    | ok r =>
      obtain ⟨s', eff⟩ := r
      exact (claim10 deps0 sW10 rfl).1 [HItem.presence emptyP] rfl s' eff h
  · cases h : redo deps0 sW10 with
    | error e =>
      have hok : isOkE (redo deps0 sW10) = true := by rfl
      rw [h] at hok
      simp [isOkE] at hok
    | ok r =>
      obtain ⟨s', eff⟩ := r
      exact (claim10 deps0 sW10 rfl).2 [HItem.presence emptyP] rfl s' eff h

end Liveblocks
